import Mathlib

/-!
Verification of the Beta–Bernoulli coin-toss notebook
(`src/Bayesian_stats/Lesson 0 - Coin Toss.ipynb`).

The notebook fixes a Beta(2,3) prior over the success probability θ, observes
10 Bernoulli outcomes (7 ones, 3 zeros), draws posterior samples with an MCMC
sampler, and compares their histogram with a closed-form posterior curve that
the script evaluates on a 1000-point grid and normalizes by a left-rectangle
Riemann sum.

The arithmetic of the closed-form cell is embedded over ℚ (the floating-point
program text transcribed into exact rationals); the maximization claim about
the density curve is stated over ℝ.  The MCMC sampler and the conjugate
update are not code in the repository (the former is a library call, the
latter is carried out in markdown); where a claim depends on them they are
modelled from the spec, as marked in the corresponding doc comments.
-/

namespace CoinToss

/-! ## Constants of the script

`alpha = 2`, `beta = 3`, `y_obs = np.zeros(10); y_obs[:7] = 1`, `niter = 10000`. -/

/-- `alpha = 2` from the source. -/
def alpha : ℚ := 2

/-- `beta = 3` from the source. -/
def beta : ℚ := 3

/-- `y_obs = np.zeros(10); y_obs[:7] = 1` from the source: seven ones then three zeros. -/
def y_obs : List ℚ := [1, 1, 1, 1, 1, 1, 1, 0, 0, 0]

/-- `niter = 10000` from the source. -/
def niter : ℕ := 10000

/-! ## The closed-form cell

```
theta = np.linspace(0,1,1000)
post_theta = (theta**9)*(1-theta)**6
C = np.sum(post_theta*(theta[1]-theta[0]))
post_theta = post_theta/C
```
-/

/-- `np.linspace(0, 1, n)`, point `i`: the equally spaced grid on [0,1] with `n` points,
so point `i` is `i / (n - 1)`. -/
def linspace01 (n i : ℕ) : ℚ := (i : ℚ) / ((n : ℚ) - 1)

/-- The grid `theta = np.linspace(0,1,1000)` from the source. -/
def theta (i : ℕ) : ℚ := linspace01 1000 i

/-- The unnormalized density exactly as the code computes it:
`post_theta = (theta**9)*(1-theta)**6`. -/
def post_theta_unnorm (t : ℚ) : ℚ := t ^ 9 * (1 - t) ^ 6

/-- The grid spacing `theta[1] - theta[0]`. -/
def dtheta : ℚ := theta 1 - theta 0

/-- The normalization constant `C = np.sum(post_theta*(theta[1]-theta[0]))`:
a left-rectangle Riemann sum of the unnormalized values over all 1000 grid points. -/
def Cnorm : ℚ := ∑ i in Finset.range 1000, post_theta_unnorm (theta i) * dtheta

/-- The normalized curve `post_theta = post_theta/C`, at grid index `i`. -/
def post_theta (i : ℕ) : ℚ := post_theta_unnorm (theta i) / Cnorm

/-- The mean of the normalized grid density, computed by the same left-rectangle
Riemann rule on the same grid: `Σ θᵢ · p(θᵢ) · Δθ`. -/
def gridMean : ℚ := ∑ i in Finset.range 1000, theta i * post_theta i * dtheta

/-! ## Integer forms of the grid sums

Writing `θᵢ = i/999`, each unnormalized grid value is
`i^9 (999-i)^6 / 999^15`, so the grid sums reduce to integer sums. -/

/-- `sumTo f n = f 0 + f 1 + ⋯ + f n`. -/
def sumTo (f : ℕ → ℕ) : ℕ → ℕ
  | 0 => f 0
  | n + 1 => sumTo f n + f (n + 1)

/-- Integer numerator of the normalization sum: `Σ_{i≤999} i^9 (999-i)^6`. -/
def S1 : ℕ := sumTo (fun i => i ^ 9 * (999 - i) ^ 6) 999

/-- Integer numerator of the first-moment sum: `Σ_{i≤999} i^10 (999-i)^6`. -/
def S2 : ℕ := sumTo (fun i => i ^ 10 * (999 - i) ^ 6) 999

/-! ## The reporting cell

`plt.hist(trace['θ'][1000:],100, normed='true')` and `np.mean(trace['θ'][1000:])`. -/

/-- `np.mean`: sum divided by length. -/
def npMean (l : List ℚ) : ℚ := l.sum / (l.length : ℚ)

/-- The retained samples `trace['θ'][1000:]`: the draws with their first 1000 dropped. -/
def retained (tr : List ℚ) : List ℚ := tr.drop 1000

/-- The reported scalar estimate `np.mean(trace['θ'][1000:])`. -/
def reportedEstimate (tr : List ℚ) : ℚ := npMean (retained tr)

/-- The sample sequence passed to `plt.hist`: `trace['θ'][1000:]`. -/
def histData (tr : List ℚ) : List ℚ := tr.drop 1000

/-! ## Generic grid normalization

The normalization pattern of the closed-form cell, over an arbitrary vector of
density values and an arbitrary grid step. -/

/-- Left-rectangle Riemann sum of the values `d` with step `dx`: `Σ dᵢ · dx`. -/
def riemannSum (d : List ℚ) (dx : ℚ) : ℚ := (d.map (fun x => x * dx)).sum

/-- Normalization as the code performs it: divide every value by the Riemann sum. -/
def normalizeGrid (d : List ℚ) (dx : ℚ) : List ℚ := d.map (fun x => x / riemannSum d dx)

/-! ## The sampler, modelled from the spec

The posterior sampler invoked by the script is a library MCMC engine whose code
is not part of this repository; only its call site is.  The spec permits any
correct posterior-sampling procedure and recommends direct sampling from the
conjugate posterior Beta(α + Σyᵢ, β + Σ(1-yᵢ)). -/

/-- Modelled from the spec: the conjugate Beta–Bernoulli update (the notebook carries
this step out in markdown, not in code): `α' = α + #successes`, `β' = β + #failures`. -/
def postParams (a b : ℚ) (data : List ℚ) : ℚ × ℚ :=
  (a + data.count 1, b + data.count 0)

/-- Modelled from the spec: a direct draw from Beta(a, b) for natural shape
parameters, by the order-statistic method — given `a + b - 1` independent
Uniform(0,1) variates `u`, the `a`-th smallest is Beta(a, b) distributed.
Out-of-range indices fall back to 0, which is also in [0,1]. -/
def betaDraw (a _b : ℕ) (u : List ℚ) : ℚ :=
  (u.insertionSort (· ≤ ·)).getD (a - 1) 0

/-- Modelled from the spec: the sample sequence, one posterior draw per iteration;
`us` supplies the uniform variates consumed by each iteration. -/
def samplerTrace (a b : ℕ) (us : List (List ℚ)) : List ℚ :=
  us.map (betaDraw a b)

/-- Natural posterior shape `α' = α + #successes` (for the integer-parameter case). -/
def postA (a : ℚ) (data : List ℚ) : ℕ := a.num.toNat + data.count 1

/-- Natural posterior shape `β' = β + #failures` (for the integer-parameter case). -/
def postB (b : ℚ) (data : List ℚ) : ℕ := b.num.toNat + data.count 0

/-- Modelled from the spec: the posterior sampler with its input validation —
it rejects exactly when `α ≤ 0`, `β ≤ 0`, or some observation is outside {0,1},
and otherwise returns the posterior sample sequence. -/
def model (a b : ℚ) (data : List ℚ) (us : List (List ℚ)) : Except String (List ℚ) :=
  if 0 < a ∧ 0 < b ∧ ∀ y ∈ data, y = 0 ∨ y = 1 then
    Except.ok (samplerTrace (postA a data) (postB b data) us)
  else
    Except.error "Invalid prior or data"

/-! ## The whole script as a pipeline

The sampler consumes randomness; the closed-form path does not. -/

/-- The observable outputs of one run of the script. -/
structure ScriptRun where
  trace : Except String (List ℚ)
  thetaGrid : List ℚ
  postDensity : List ℚ
  closedFormMean : ℚ

/-- One run of the script: the sampler consumes the random stream `us`; the grid,
the normalized density and its grid mean are computed by the closed-form cell. -/
def runScript (us : List (List ℚ)) : ScriptRun :=
  { trace := model alpha beta y_obs us
  , thetaGrid := (List.range 1000).map theta
  , postDensity := (List.range 1000).map post_theta
  , closedFormMean := gridMean }

/-! ## The real-valued density curve

For the maximization claim, the expression the code evaluates, read over ℝ. -/

/-- The unnormalized density `t^9 * (1-t)^6` the code evaluates, as a function on ℝ. -/
def post_theta_unnorm_real (t : ℝ) : ℝ := t ^ 9 * (1 - t) ^ 6

/-! ## Helper lemmas -/

set_option maxRecDepth 8000 in
lemma S1_pos : 0 < S1 := by decide

set_option maxRecDepth 8000 in
lemma s_upper : S2 * 200 < 119 * (999 * S1) := by decide

set_option maxRecDepth 8000 in
lemma s_lower : 29 * (999 * S1) < S2 * 50 := by decide

lemma sumTo_eq (f : ℕ → ℕ) (n : ℕ) : sumTo f n = ∑ i in Finset.range (n + 1), f i := by
  induction n with
  | zero => simp [sumTo]
  | succ n ih => rw [sumTo, ih]; exact (Finset.sum_range_succ f (n + 1)).symm

lemma theta_eq (i : ℕ) : theta i = (i : ℚ) / 999 := by
  norm_num [theta, linspace01]

lemma dtheta_eq : dtheta = 1 / 999 := by
  norm_num [dtheta, theta_eq]

lemma term_eq (i : ℕ) (hi : i ≤ 999) :
    post_theta_unnorm (theta i) = ((i ^ 9 * (999 - i) ^ 6 : ℕ) : ℚ) / 999 ^ 15 := by
  have h : ((999 - i : ℕ) : ℚ) = 999 - (i : ℚ) := by
    push_cast [Nat.cast_sub hi]; ring
  rw [post_theta_unnorm, theta_eq, eq_div_iff (show ((999 : ℚ) ^ 15) ≠ 0 by norm_num)]
  push_cast [h]
  ring

lemma Cnorm_eq : Cnorm = (S1 : ℚ) / 999 ^ 16 := by
  rw [Cnorm, S1, sumTo_eq, Nat.cast_sum, Finset.sum_div]
  refine Finset.sum_congr rfl fun i hi => ?_
  have hi' : i ≤ 999 := Nat.lt_succ_iff.mp (Finset.mem_range.mp hi)
  rw [term_eq i hi', dtheta_eq]
  ring

lemma Cnorm_pos : 0 < Cnorm := by
  rw [Cnorm_eq]
  have h1 : (0 : ℚ) < (S1 : ℚ) := by exact_mod_cast S1_pos
  positivity

lemma mean_term_eq (i : ℕ) (hi : i ≤ 999) :
    theta i * post_theta_unnorm (theta i) = ((i ^ 10 * (999 - i) ^ 6 : ℕ) : ℚ) / 999 ^ 16 := by
  rw [term_eq i hi, theta_eq, eq_div_iff (show ((999 : ℚ) ^ 16) ≠ 0 by norm_num)]
  push_cast
  ring

lemma gridMean_eq : gridMean = (S2 : ℚ) / (999 * S1) := by
  have hS1 : (0 : ℚ) < (S1 : ℚ) := by exact_mod_cast S1_pos
  have hS1' : (S1 : ℚ) ≠ 0 := ne_of_gt hS1
  have hnum : ∑ i in Finset.range 1000, theta i * post_theta_unnorm (theta i) * dtheta
      = (S2 : ℚ) / 999 ^ 17 := by
    rw [S2, sumTo_eq, Nat.cast_sum, Finset.sum_div]
    refine Finset.sum_congr rfl fun i hi => ?_
    have hi' : i ≤ 999 := Nat.lt_succ_iff.mp (Finset.mem_range.mp hi)
    rw [mean_term_eq i hi', dtheta_eq]
    ring
  have hsplit : gridMean = (∑ i in Finset.range 1000,
      theta i * post_theta_unnorm (theta i) * dtheta) / Cnorm := by
    rw [gridMean, Finset.sum_div]
    refine Finset.sum_congr rfl fun i _ => ?_
    rw [post_theta]
    ring
  rw [hsplit, hnum, Cnorm_eq]
  rw [div_div_div_comm]
  norm_num [div_div]
  rw [mul_comm]

lemma riemannSum_eq_sum_mul (d : List ℚ) (dx : ℚ) : riemannSum d dx = d.sum * dx := by
  induction d with
  | nil => simp [riemannSum]
  | cons x xs ih =>
    simp only [riemannSum, List.map_cons, List.sum_cons] at ih ⊢
    rw [ih]
    ring

lemma sum_map_div (d : List ℚ) (c : ℚ) : (d.map (fun x => x / c)).sum = d.sum / c := by
  induction d with
  | nil => simp
  | cons x xs ih => simp [List.sum_cons, ih, add_div]

lemma list_sum_pos (d : List ℚ) (hnn : ∀ x ∈ d, 0 ≤ x) (hpos : ∃ x ∈ d, 0 < x) :
    0 < d.sum := by
  induction d with
  | nil => simp at hpos
  | cons x xs ih =>
    rw [List.sum_cons]
    rcases hpos with ⟨y, hy, hypos⟩
    rcases List.mem_cons.mp hy with rfl | hyxs
    · have hxs : 0 ≤ xs.sum :=
        List.sum_nonneg (fun z hz => hnn z (List.mem_cons_of_mem _ hz))
      linarith
    · have hx : 0 ≤ x := hnn x (List.mem_cons_self x xs)
      have hrec := ih (fun z hz => hnn z (List.mem_cons_of_mem _ hz)) ⟨y, hyxs, hypos⟩
      linarith

lemma count_zero_of_binary (data : List ℚ) (hb : ∀ y ∈ data, y = 0 ∨ y = 1) :
    data.count 0 = data.length - data.count 1 := by
  induction data with
  | nil => simp
  | cons x xs ih =>
    have hx := hb x (List.mem_cons_self x xs)
    have hxs : ∀ y ∈ xs, y = 0 ∨ y = 1 := fun y hy => hb y (List.mem_cons_of_mem x hy)
    have hcle : xs.count 1 ≤ xs.length := List.count_le_length 1 xs
    have hrec := ih hxs
    rcases hx with h0 | h1
    · subst h0
      have e0 : List.count (0 : ℚ) (0 :: xs) = xs.count 0 + 1 := by
        simp [List.count_cons]
      have e1 : List.count (1 : ℚ) (0 :: xs) = xs.count 1 := by
        simp [List.count_cons]
      rw [e0, e1, List.length_cons]
      omega
    · subst h1
      have e0 : List.count (0 : ℚ) (1 :: xs) = xs.count 0 := by
        simp [List.count_cons]
      have e1 : List.count (1 : ℚ) (1 :: xs) = xs.count 1 + 1 := by
        simp [List.count_cons]
      rw [e0, e1, List.length_cons]
      omega

lemma ptu_real_hasDerivAt (t : ℝ) :
    HasDerivAt post_theta_unnorm_real (t ^ 8 * (1 - t) ^ 5 * (9 - 15 * t)) t := by
  have h1 : HasDerivAt (fun x : ℝ => x ^ 9) (9 * t ^ 8) t := by
    simpa using hasDerivAt_pow 9 t
  have hsub : HasDerivAt (fun x : ℝ => 1 - x) (-1) t := (hasDerivAt_id t).const_sub 1
  have h2 : HasDerivAt (fun x : ℝ => (1 - x) ^ 6) (6 * (1 - t) ^ 5 * (-1)) t := by
    simpa using hsub.pow 6
  have hmul := h1.mul h2
  have hfun : post_theta_unnorm_real = fun x : ℝ => x ^ 9 * (1 - x) ^ 6 := rfl
  rw [hfun]
  convert hmul using 1
  ring

lemma ptu_real_continuous : Continuous post_theta_unnorm_real :=
  (continuous_pow 9).mul ((continuous_const.sub continuous_id).pow 6)

lemma ptu_strictMonoOn : StrictMonoOn post_theta_unnorm_real (Set.Icc 0 (3 / 5)) := by
  apply strictMonoOn_of_deriv_pos (convex_Icc _ _) ptu_real_continuous.continuousOn
  intro x hx
  rw [interior_Icc] at hx
  obtain ⟨hx0, hx1⟩ := hx
  rw [(ptu_real_hasDerivAt x).deriv]
  have h9 : 0 < 9 - 15 * x := by linarith
  have hx8 : 0 < x ^ 8 := pow_pos hx0 8
  have h5 : 0 < (1 - x) ^ 5 := pow_pos (by linarith) 5
  exact mul_pos (mul_pos hx8 h5) h9

lemma ptu_strictAntiOn : StrictAntiOn post_theta_unnorm_real (Set.Icc (3 / 5) 1) := by
  apply strictAntiOn_of_deriv_neg (convex_Icc _ _) ptu_real_continuous.continuousOn
  intro x hx
  rw [interior_Icc] at hx
  obtain ⟨hx0, hx1⟩ := hx
  rw [(ptu_real_hasDerivAt x).deriv]
  have h9 : 9 - 15 * x < 0 := by linarith
  have hx8 : 0 < x ^ 8 := pow_pos (by linarith) 8
  have h5 : 0 < (1 - x) ^ 5 := pow_pos (by linarith) 5
  exact mul_neg_of_pos_of_neg (mul_pos hx8 h5) h9

/-! ## Claim theorems -/

/-- C1: the claim says the pre-normalization grid values equal `θ^8 (1-θ)^5`
(the Beta(9,6) kernel `θ^(α'-1)(1-θ)^(β'-1)` with α'=9, β'=6).  The code instead
computes `θ^9 (1-θ)^6` (the Beta(10,7) kernel): at grid point 333, where θ = 1/3,
the computed value is `(1/3)^9 (2/3)^6`, which differs from `(1/3)^8 (2/3)^5`. -/
theorem c1_grid_value_is_not_beta96_kernel :
    post_theta_unnorm (theta 333) = (1 / 3 : ℚ) ^ 9 * (2 / 3) ^ 6 ∧
    post_theta_unnorm (theta 333) ≠ (theta 333) ^ 8 * (1 - theta 333) ^ 5 := by
  constructor
  · norm_num [post_theta_unnorm, theta, linspace01]
  · norm_num [post_theta_unnorm, theta, linspace01]

/-- C2: for every prior α>0, β>0 and every binary data sequence of length n with k
successes, the conjugate update produces posterior parameters (α + k, β + (n - k)).
The update itself is modelled from the spec (the notebook performs it in markdown). -/
theorem c2_conjugate_update (a b : ℚ) (_ha : 0 < a) (_hb : 0 < b) (data : List ℚ)
    (hbin : ∀ y ∈ data, y = 0 ∨ y = 1) :
    postParams a b data = (a + data.count 1, b + (data.length - data.count 1 : ℕ)) := by
  rw [postParams, count_zero_of_binary data hbin]

/-- C2 witness: at α=2, β=3 and the script's data (7 successes, 3 failures) the
update yields (2 + 7, 3 + (10 - 7)) = (9, 6). -/
theorem c2_conjugate_update_witness :
    (0 < (2 : ℚ)) ∧ (0 < (3 : ℚ)) ∧ (∀ y ∈ y_obs, y = 0 ∨ y = 1) ∧
    postParams 2 3 y_obs = (2 + (y_obs.count 1 : ℚ), 3 + ((y_obs.length - y_obs.count 1 : ℕ) : ℚ)) ∧
    postParams 2 3 y_obs = (9, 6) :=
  ⟨by norm_num, by norm_num, by norm_num [y_obs],
    c2_conjugate_update 2 3 (by norm_num) (by norm_num) y_obs (by norm_num [y_obs]),
    by norm_num [postParams, y_obs, List.count_cons, Prod.ext_iff]⟩

/-- C3: the claim says the Riemann-sum mean of the normalized grid density equals
0.6 up to floating-point tolerance plus discretization error.  In exact arithmetic
the mean of the density the code actually normalizes lies strictly between 0.58 and
0.595 (it is `S2/(999·S1)` ≈ 0.58823, essentially 10/17, the Beta(10,7) mean), so it
misses 3/5 by more than 1/200 — far beyond the stated tolerances. -/
theorem c3_grid_mean_misses_point_six :
    29 / 50 < gridMean ∧ gridMean < 119 / 200 ∧ 1 / 200 < 3 / 5 - gridMean := by
  have hS1 : (0 : ℚ) < (S1 : ℚ) := by exact_mod_cast S1_pos
  have hden : (0 : ℚ) < 999 * (S1 : ℚ) := by positivity
  have hup : gridMean < 119 / 200 := by
    rw [gridMean_eq, div_lt_div_iff₀ hden (by norm_num : (0 : ℚ) < 200)]
    exact_mod_cast s_upper
  have hlo : 29 / 50 < gridMean := by
    rw [gridMean_eq, div_lt_div_iff₀ (by norm_num : (0 : ℚ) < 50) hden]
    exact_mod_cast s_lower
  exact ⟨hlo, hup, by linarith⟩

/-- C4: normalizing a nonnegative, not-all-zero density vector by its left-rectangle
Riemann sum and re-integrating with the same rule yields exactly 1, for every
positive grid step. -/
theorem c4_renormalized_integral_is_one (d : List ℚ) (dx : ℚ)
    (hnn : ∀ x ∈ d, 0 ≤ x) (hpos : ∃ x ∈ d, 0 < x) (hdx : 0 < dx) :
    riemannSum (normalizeGrid d dx) dx = 1 := by
  have hsum : 0 < d.sum := list_sum_pos d hnn hpos
  rw [normalizeGrid, riemannSum_eq_sum_mul, sum_map_div, riemannSum_eq_sum_mul,
    div_mul_eq_mul_div]
  exact div_self (ne_of_gt (mul_pos hsum hdx))

/-- C4 witness: the density vector [1, 2] with grid step 1/2 renormalizes to a
vector whose Riemann sum is exactly 1. -/
theorem c4_renormalized_integral_is_one_witness :
    (∀ x ∈ [(1 : ℚ), 2], 0 ≤ x) ∧ (∃ x ∈ [(1 : ℚ), 2], 0 < x) ∧ (0 < (1 / 2 : ℚ)) ∧
    riemannSum (normalizeGrid [(1 : ℚ), 2] (1 / 2)) (1 / 2) = 1 :=
  ⟨by norm_num, ⟨1, by norm_num, by norm_num⟩, by norm_num,
    c4_renormalized_integral_is_one [(1 : ℚ), 2] (1 / 2) (by norm_num)
      ⟨1, by norm_num, by norm_num⟩ (by norm_num)⟩

/-- C5: on a trace of the requested `niter = 10000` draws, the reported estimate is
the arithmetic mean of the retained samples — the 9000 draws at indices 1000 and
above, the burn-in prefix of 1000 being discarded — and the histogrammed sequence
is that same retained subsequence. -/
theorem c5_reported_mean_of_retained (tr : List ℚ) (h : tr.length = niter) :
    reportedEstimate tr = (retained tr).sum / 9000 ∧
    (retained tr).length = 9000 ∧
    (∀ i, i < 9000 → (retained tr).getD i 0 = tr.getD (1000 + i) 0) ∧
    histData tr = retained tr := by
  have hlen : (retained tr).length = 9000 := by
    simp [retained, List.length_drop, h, niter]
  refine ⟨?_, hlen, ?_, rfl⟩
  · rw [reportedEstimate, npMean, hlen]
    norm_num
  · intro i _
    simp [retained, List.getD_eq_getElem?_getD, List.getElem?_drop]

/-- C5 witness: a concrete trace of length 10000. -/
theorem c5_reported_mean_of_retained_witness :
    (List.replicate 10000 (1 / 2 : ℚ)).length = niter ∧
    (reportedEstimate (List.replicate 10000 (1 / 2 : ℚ))
        = (retained (List.replicate 10000 (1 / 2 : ℚ))).sum / 9000 ∧
      (retained (List.replicate 10000 (1 / 2 : ℚ))).length = 9000 ∧
      (∀ i, i < 9000 → (retained (List.replicate 10000 (1 / 2 : ℚ))).getD i 0
          = (List.replicate 10000 (1 / 2 : ℚ)).getD (1000 + i) 0) ∧
      histData (List.replicate 10000 (1 / 2 : ℚ)) = retained (List.replicate 10000 (1 / 2 : ℚ))) :=
  ⟨by rw [List.length_replicate, niter],
    c5_reported_mean_of_retained _ (by rw [List.length_replicate, niter])⟩

/-- C6: the sampler (modelled from the spec, with the validation the spec requires)
succeeds if and only if α > 0, β > 0 and every observation is 0 or 1; on every
invalid input it reports an error instead. -/
theorem c6_sampler_validation (a b : ℚ) (data : List ℚ) (us : List (List ℚ)) :
    (∃ tr, model a b data us = Except.ok tr) ↔
      (0 < a ∧ 0 < b ∧ ∀ y ∈ data, y = 0 ∨ y = 1) := by
  by_cases hcond : 0 < a ∧ 0 < b ∧ ∀ y ∈ data, y = 0 ∨ y = 1
  · rw [model, if_pos hcond]
    exact ⟨fun _ => hcond, fun _ => ⟨_, rfl⟩⟩
  · rw [model, if_neg hcond]
    constructor
    · rintro ⟨tr, htr⟩
      exact Except.noConfusion htr
    · exact fun hc => absurd hc hcond

/-- C7: every element of the sampler's (spec-modelled) output sequence lies in
[0, 1], one draw per iteration, burn-in prefix included, whenever the uniform
variates feeding it lie in [0, 1]. -/
theorem c7_samples_in_unit_interval (a b : ℕ) (us : List (List ℚ))
    (h : ∀ u ∈ us, ∀ x ∈ u, 0 ≤ x ∧ x ≤ 1) :
    ∀ t ∈ samplerTrace a b us, 0 ≤ t ∧ t ≤ 1 := by
  intro t ht
  rw [samplerTrace, List.mem_map] at ht
  obtain ⟨u, hu, rfl⟩ := ht
  rw [betaDraw]
  by_cases hlen : a - 1 < (u.insertionSort (· ≤ ·)).length
  · rw [List.getD_eq_getElem _ 0 hlen]
    have hmem : (u.insertionSort (· ≤ ·))[a - 1] ∈ u.insertionSort (· ≤ ·) :=
      List.getElem_mem hlen
    exact h u hu _ ((List.perm_insertionSort (· ≤ ·) u).mem_iff.mp hmem)
  · rw [List.getD_eq_default _ 0 (le_of_not_lt hlen)]
    exact ⟨le_refl 0, by norm_num⟩

/-- C7 witness: a concrete random stream with all variates in [0, 1]. -/
theorem c7_samples_in_unit_interval_witness :
    (∀ u ∈ [[(1 / 2 : ℚ), 1 / 4, 3 / 4]], ∀ x ∈ u, 0 ≤ x ∧ x ≤ 1) ∧
    (∀ t ∈ samplerTrace 2 2 [[(1 / 2 : ℚ), 1 / 4, 3 / 4]], 0 ≤ t ∧ t ≤ 1) :=
  ⟨by norm_num, c7_samples_in_unit_interval 2 2 _ (by norm_num)⟩

/-- C8: on the script's grid both endpoints are included, the unnormalized density
vanishes there (both exponents are positive) and is finite everywhere, and the
normalization constant C is strictly positive, so the normalizing division never
divides by zero. -/
theorem c8_endpoints_zero_and_norm_positive :
    post_theta_unnorm (theta 0) = 0 ∧ post_theta_unnorm (theta 999) = 0 ∧ 0 < Cnorm := by
  refine ⟨?_, ?_, Cnorm_pos⟩
  · norm_num [post_theta_unnorm, theta, linspace01]
  · norm_num [post_theta_unnorm, theta, linspace01]

/-- C9: the closed-form path is deterministic — two runs of the script on any two
random streams produce the identical θ-grid, identical normalized density values
and identical derived grid mean: no randomness reaches that path. -/
theorem c9_closed_form_deterministic (us1 us2 : List (List ℚ)) :
    (runScript us1).thetaGrid = (runScript us2).thetaGrid ∧
    (runScript us1).postDensity = (runScript us2).postDensity ∧
    (runScript us1).closedFormMean = (runScript us2).closedFormMean :=
  ⟨rfl, rfl, rfl⟩

/-- C10: the density the script actually evaluates, `t^9 (1-t)^6`, attains its
unique maximum over [0, 1] at t = 9/15 = 0.6 — the value that the analytic
Beta(9,6) posterior has as its mean. -/
theorem c10_unique_max_at_nine_fifteenths (t : ℝ) (h0 : 0 ≤ t) (h1 : t ≤ 1)
    (hne : t ≠ 9 / 15) :
    post_theta_unnorm_real t < post_theta_unnorm_real (9 / 15) := by
  have h35 : (9 : ℝ) / 15 = 3 / 5 := by norm_num
  rw [h35]
  rw [h35] at hne
  rcases lt_or_gt_of_ne hne with hlt | hgt
  · exact ptu_strictMonoOn ⟨h0, le_of_lt hlt⟩ ⟨by norm_num, le_refl _⟩ hlt
  · exact ptu_strictAntiOn ⟨le_refl _, by norm_num⟩ ⟨le_of_lt hgt, h1⟩ hgt

/-- C10 witness: at t = 1/2 the density value is strictly below the value at 9/15. -/
theorem c10_unique_max_witness :
    (0 ≤ (1 / 2 : ℝ)) ∧ ((1 / 2 : ℝ) ≤ 1) ∧ ((1 / 2 : ℝ) ≠ 9 / 15) ∧
    post_theta_unnorm_real (1 / 2) < post_theta_unnorm_real (9 / 15) :=
  ⟨by norm_num, by norm_num, by norm_num,
    c10_unique_max_at_nine_fifteenths (1 / 2) (by norm_num) (by norm_num) (by norm_num)⟩

end CoinToss
